import Mathlib

/-!
Scraping handler: a verification development

A shallow embedding of `scraping.go` (package `scraping`): the HTTP handler
returned by `Handler`, its admission counter `connects`, the fan-out /
fan-in routine `processURLs` and the fetcher `getData`.

Conventions of the embedding.

* The `http.ResponseWriter` is a recorder (as `httptest.ResponseRecorder` in
  the tests): a `Response` holds the status code, the headers set by the
  handler code and by `http.Error`, and the body written.  A `Write` on it
  does not fail, and a first `Write` without `WriteHeader` records status 200.
* `uint32` values are naturals below `2 ^ 32`; `atomic.AddUint32` adds
  modulo `2 ^ 32`.
* Go `int` values are integers; `strconv.Itoa` is the decimal rendering.
* The goroutines started by `processURLs` and the network are the
  environment: what each `select` of the fan-in loop receives is an input
  of the model (a list with one entry per iteration); what `http.Get` and
  `ioutil.ReadAll` return is an input of `getData`, and so is what its
  blocking send meets on each channel (a receiver, a closed channel, or
  nothing).
* The body of a request is the text its reader delivers, with the way the
  reader signals the end of the input (`eofWithData`).
* The constant `LineBreak` is declared outside `scraping.go`; every
  definition that uses it takes it as a parameter.
-/

namespace Scraping

set_option autoImplicit false

/-! ## Responses and the `net/http` helpers the handler calls -/

/-- Recorded answer of a handler: status code, headers, body. -/
structure Response where
  status : Nat
  header : List (String × String)
  body : String
deriving DecidableEq, Repr

/-- Go `Header.Get`: the first value stored under the key, or the empty string. -/
def headerGet : List (String × String) → String → String
  | [], _ => ""
  | (k, v) :: rest, key => if k = key then v else headerGet rest key

/-- Go `Header.Set`: replaces the values stored under the key by one value. -/
def headerSet (h : List (String × String)) (key value : String) : List (String × String) :=
  h.filter (fun kv => kv.1 ≠ key) ++ [(key, value)]

def StatusOK : Nat := 200
def StatusNotFound : Nat := 404
def StatusMethodNotAllowed : Nat := 405
def StatusUnsupportedMediaType : Nat := 415
def StatusTooManyRequests : Nat := 429
def StatusInternalServerError : Nat := 500

/-- Go `http.StatusText` on the codes the handler passes to it. -/
def StatusText (code : Nat) : String :=
  if code = 429 then "Too Many Requests"
  else if code = 500 then "Internal Server Error"
  else ""

/-- Go `http.Error(w, msg, code)` on a writer whose headers so far are `hdr`:
sets the two plain-text headers, writes the status code and prints the
message followed by a newline. -/
def httpError (hdr : List (String × String)) (msg : String) (code : Nat) : Response :=
  { status := code
    header := headerSet (headerSet hdr "Content-Type" "text/plain; charset=utf-8")
      "X-Content-Type-Options" "nosniff"
    body := msg ++ "\n" }

/-- Go `http.NotFound`. -/
def httpNotFound : Response :=
  httpError [] "404 page not found" StatusNotFound

/-- The part of an `*http.Request` the handler reads. -/
structure Request where
  path : String
  method : String
  header : List (String × String)
  body : String
deriving DecidableEq, Repr

def MethodPost : String := "POST"

/-! ## Constants -/

/-- Go `const MaxConnections uint32 = 999`. -/
def MaxConnections : Nat := 999

/-- Number of values of a `uint32`. -/
def uint32Size : Nat := 2 ^ 32

/-- Go `^uint32(0)`: all 32 bits set. -/
def allOnes32 : Nat := uint32Size - 1

/-- Go `atomic.AddUint32(&x, delta)`: the new value of `x`. -/
def atomicAddUint32 (x delta : Nat) : Nat :=
  (x + delta) % uint32Size

/-- Go `strconv.Itoa`. -/
def Itoa (i : Int) : String :=
  toString i

/-! ## `bufio.Scanner` with the default split function `ScanLines` -/

/-- Go `bufio.MaxScanTokenSize`: the largest size of the buffer of a scanner,
in bytes. -/
def MaxScanTokenSize : Nat := 64 * 1024

/-- Go `dropCR`: drops one trailing carriage return. -/
def dropCR (data : List Char) : List Char :=
  if data.getLast? = some '\r' then data.dropLast else data

/-- The tokens `sc.Scan()` / `sc.Text()` yield on the rest of the input,
given the bytes of the current line read so far (`cur`, reversed, `n` bytes).
A newline ends the line; at the end of the input a non-empty unterminated
line is a last token.  The buffer of the scanner holds `MaxScanTokenSize`
bytes at most: a line that does not fit it with its newline makes `Scan`
return false, and so does an unterminated last line that fills it exactly,
unless the scanner already knows that the input has ended.
`eofWithData` says how the reader of the body ends: with `io.EOF` returned
together with its last bytes (true, as a `net/http` body of known length
does) or on a read of its own (false, as a `strings.Reader` does). -/
def scanFrom (eofWithData : Bool) (cur : List Char) (n : Nat) : List Char → List String
  | [] => if cur = [] then [] else [String.mk (dropCR cur.reverse)]
  | c :: cs =>
    if c = '\n' then String.mk (dropCR cur.reverse) :: scanFrom eofWithData [] 0 cs
    else if MaxScanTokenSize < n + c.utf8Size then []
    else if MaxScanTokenSize = n + c.utf8Size then
      (if cs = [] ∧ eofWithData = true then [String.mk (dropCR (c :: cur).reverse)] else [])
    else scanFrom eofWithData (c :: cur) (n + c.utf8Size) cs

/-- All the lines a `bufio.Scanner` yields on a body. -/
def scanLines (eofWithData : Bool) (body : String) : List String :=
  scanFrom eofWithData [] 0 body.toList

/-! ## `getData` -/

/-- What the network does for one `getData` call: `http.Get` fails, or it
succeeds and `ioutil.ReadAll` fails, or the body is read in full. -/
inductive Retrieval where
  | transportError (cause : String)
  | readError (cause : String)
  | body (bytes : List Nat)
deriving DecidableEq, Repr

/-- One value sent on one of the two channels of `getData`. -/
inductive Send where
  | res (size : Int)
  | err (text : String)
deriving DecidableEq, Repr

/-- What a blocking send `ch <- v` on an unbuffered channel meets: a receiver
takes the value (`received`); the channel is closed, before the send or
while the sender waits (`closed`); or the channel stays open and nobody ever
receives (`abandoned`). -/
inductive ChanFate where
  | received
  | closed
  | abandoned
deriving DecidableEq, Repr

/-- How a run of `getData` ends: it returns, it panics (send on a closed
channel), or it stays blocked in its send. -/
inductive Ending where
  | returned
  | panicked
  | blocked
deriving DecidableEq, Repr

/-- Go `ch <- v` on an unbuffered channel with the given fate: the values
that went through and how the sender goes on. -/
def chanSend (fate : ChanFate) (v : Send) : List Send × Ending :=
  match fate with
  | .received => ([v], .returned)
  | .closed => ([], .panicked)
  | .abandoned => ([], .blocked)

/-- Deferred calls run when a function returns or panics, not while it
stays blocked. -/
def runsDeferred : Ending → Bool
  | .returned => true
  | .panicked => true
  | .blocked => false

/-- What one run of `getData` did: the sends that went through, in order,
how the run ended, and whether the deferred `resp.Body.Close()` ran. -/
structure FetchTrace where
  sends : List Send
  ending : Ending
  closedBody : Bool
deriving DecidableEq, Repr

/-- Go `getData(url, resCh, errCh)`, with the fate of a send on `resCh` and
of a send on `errCh`; `fmt.Errorf("...: %w", err)` yields an error whose
text is the prefix followed by the text of `err`.  The deferred
`resp.Body.Close()` is registered once `http.Get` has succeeded and runs
when the function returns or panics. -/
def getData (_url : String) (net : Retrieval) (resCh errCh : ChanFate) : FetchTrace :=
  match net with
  | .transportError cause =>
    let s := chanSend errCh (.err ("failed to send request: " ++ cause))
    { sends := s.1, ending := s.2, closedBody := false }
  | .readError cause =>
    let s := chanSend errCh (.err ("failed to read body: " ++ cause))
    { sends := s.1, ending := s.2, closedBody := runsDeferred s.2 }
  | .body bytes =>
    let s := chanSend resCh (.res (bytes.length : Int))
    { sends := s.1, ending := s.2, closedBody := runsDeferred s.2 }

/-! ## `processURLs` -/

/-- What a receive on `resCh` or `errCh` can deliver. -/
inductive Outcome where
  | res (size : Int)
  | resClosed
  | err (e : String)
  | errClosed
deriving DecidableEq, Repr

/-- The case one `select` of the fan-in loop takes. -/
inductive Selected where
  | recv (o : Outcome)
  | timeout
deriving DecidableEq, Repr

/-- The `return` by which `processURLs` leaves. -/
inductive Exit where
  | written
  | closedChannel
  | fetchError
  | timedOut
deriving DecidableEq, Repr

/-- Result of `processURLs`: the response, the exit taken, the URLs handed
to `go getData(...)` in order, the final value of `numURLs` (the bound of
the fan-in loop) and the number of fan-in iterations entered. -/
structure ProcResult where
  resp : Response
  exit : Exit
  launched : List String
  numURLs : Nat
  iterations : Nat
deriving DecidableEq, Repr

/-- The fan-in loop `for i := 0; i < numURLs; i++ { select ... }` from
iteration `i` with `remaining = numURLs - i` iterations to go.  `evs` holds
what the following selects take; when nothing more ever arrives the timer
case is the one that fires.  Returns the response, the exit and the number
of iterations entered. -/
def fanIn (LineBreak : String) : Nat → Nat → String → List Selected → Response × Exit × Nat
  | 0, i, buf, _ => ({ status := StatusOK, header := [], body := buf }, .written, i)
  | remaining + 1, i, buf, evs =>
    match evs.headD .timeout with
    | .recv (.res size) =>
      if i = 0 then fanIn LineBreak remaining (i + 1) (buf ++ Itoa size) evs.tail
      else fanIn LineBreak remaining (i + 1) (buf ++ (LineBreak ++ Itoa size)) evs.tail
    | .recv .resClosed =>
      (httpError [] (StatusText StatusInternalServerError) StatusInternalServerError,
        .closedChannel, i + 1)
    | .recv (.err e) =>
      (httpError [] ("Error was ocurred: " ++ e) StatusInternalServerError, .fetchError, i + 1)
    | .recv .errClosed =>
      (httpError [] (StatusText StatusInternalServerError) StatusInternalServerError,
        .closedChannel, i + 1)
    | .timeout =>
      (httpError [] (StatusText StatusInternalServerError) StatusInternalServerError,
        .timedOut, i + 1)

/-- Go `processURLs(w, r)`: one `go getData` per scanned line, then the
fan-in loop over `numURLs` iterations, then the write of the buffer. -/
def processURLs (eofWithData : Bool) (LineBreak : String) (body : String)
    (evs : List Selected) : ProcResult :=
  let urls := scanLines eofWithData body
  let numURLs := urls.length
  let out := fanIn LineBreak numURLs 0 "" evs
  { resp := out.1, exit := out.2.1, launched := urls, numURLs := numURLs,
    iterations := out.2.2 }

/-- Number of fetchers whose send the fan-in loop of a run received: every
iteration that did not end in the timer case or on a closed channel took
one value. -/
def received (p : ProcResult) : Nat :=
  match p.exit with
  | .written => p.iterations
  | .fetchError => p.iterations
  | .closedChannel => p.iterations - 1
  | .timedOut => p.iterations - 1

/-- Number of fetchers launched by a run of `processURLs` whose send was not
received before it returned. -/
def unserved (p : ProcResult) : Nat :=
  p.launched.length - received p

/-- Fate of a send on `resCh` or `errCh` once `processURLs` has returned: its
deferred function (lines 65 to 68) has closed both channels. -/
def fateAfterReturn : ChanFate := .closed

/-! ## The fan-in loop over timed arrivals -/

/-- Go `10 * time.Second`, in nanoseconds. -/
def selectTimeout : Nat := 10 * 1000000000

/-- One arrival as the fan-in loop meets it: the outcome, the time in
nanoseconds between the start of the iteration (when `time.After` is armed
afresh) and the moment the outcome is ready, and the choice the runtime
makes when outcome and timer are ready at the same instant. -/
structure Timed where
  gap : Nat
  outcome : Outcome
  tieToTimer : Bool
deriving DecidableEq, Repr

/-- The case the `select` takes on a timed arrival. -/
def resolve (t : Timed) : Selected :=
  if t.gap < selectTimeout then .recv t.outcome
  else if t.gap = selectTimeout ∧ t.tieToTimer = false then .recv t.outcome
  else .timeout

/-- The function `processURLs` run against timed arrivals: each iteration
resolves its own select, with its own timer. -/
def processURLsTimed (eofWithData : Bool) (LineBreak : String) (body : String)
    (arrivals : List Timed) : ProcResult :=
  processURLs eofWithData LineBreak body (arrivals.map resolve)

/-! ## `Handler` -/

/-- Go `notAllowed(w, r)`. -/
def notAllowed (r : Request) : Response :=
  httpError (headerSet [] "Allow" "POST, OPTIONS")
    ("Method " ++ r.method ++ " is not allowed.") StatusMethodNotAllowed

/-- Go `unsupportedContentType(w, r)`. -/
def unsupportedContentType (_r : Request) : Response :=
  httpError [] "Content-Type header is not text/plain" StatusUnsupportedMediaType

/-- What one call of the handler function did, run on its own: the response,
the value of `connects` when it returns, the value of `connects` while
`processURLs` runs (if it runs), the result of `processURLs` (if it runs)
and the operands of the `atomic.AddUint32` calls performed, in order. -/
structure HandlerResult where
  resp : Response
  connects : Nat
  inside : Option Nat
  proc : Option ProcResult
  adds : List Nat
deriving DecidableEq, Repr

/-- The function returned by Go `Handler()`, on the counter value `connects`
of its closure, with the selects of the fan-in loop resolved by `evs`. -/
def Handler (eofWithData : Bool) (LineBreak : String) (connects : Nat) (r : Request)
    (evs : List Selected) : HandlerResult :=
  if r.path ≠ "/" then
    { resp := httpNotFound, connects := connects, inside := none, proc := none, adds := [] }
  else if r.method ≠ MethodPost then
    { resp := notAllowed r, connects := connects, inside := none, proc := none, adds := [] }
  else if headerGet r.header "Content-Type" ≠ "text/plain" then
    { resp := unsupportedContentType r, connects := connects, inside := none, proc := none,
      adds := [] }
  else if connects = MaxConnections then
    { resp := httpError [] (StatusText StatusTooManyRequests) StatusTooManyRequests
      connects := connects, inside := none, proc := none, adds := [] }
  else
    let entered := atomicAddUint32 connects 1
    let p := processURLs eofWithData LineBreak r.body evs
    let left := atomicAddUint32 entered allOnes32
    { resp := p.resp, connects := left, inside := some entered, proc := some p,
      adds := [1, allOnes32] }

/-! ## The handler under interleaving -/

/-- Where one in-flight request of the handler stands: it has passed the
path, method and content-type checks (`arrived`); it has compared
`connects` with `MaxConnections` and found them different (`passed`); it has
added 1 and is inside `processURLs` (`running`); it has returned and the
deferred addition has run (`released`); or it was answered 429 (`rejected`). -/
inductive Phase where
  | arrived
  | passed
  | running
  | released
  | rejected
deriving DecidableEq, Repr

/-- Shared counter of one `Handler()` value and the requests it is serving. -/
structure Gate where
  connects : Nat
  reqs : List Phase
deriving DecidableEq, Repr

/-- The next step of a request in a given phase on a given counter value:
the comparison of line 38, the addition of line 43, the deferred addition
of line 44. -/
def advance (connects : Nat) : Phase → Nat × Phase
  | .arrived => if connects = MaxConnections then (connects, .rejected) else (connects, .passed)
  | .passed => (atomicAddUint32 connects 1, .running)
  | .running => (atomicAddUint32 connects allOnes32, .released)
  | .released => (connects, .released)
  | .rejected => (connects, .rejected)

/-- A scheduling decision: a new request reaches the gate, or request `i`
takes its next step. -/
inductive Action where
  | arrive
  | next (i : Nat)
deriving DecidableEq, Repr

/-- One scheduling decision applied to the gate. -/
def step (s : Gate) : Action → Gate
  | .arrive => { s with reqs := s.reqs ++ [.arrived] }
  | .next i =>
    match s.reqs[i]? with
    | none => s
    | some p => { connects := (advance s.connects p).1, reqs := s.reqs.set i (advance s.connects p).2 }

/-- A schedule applied from a gate state. -/
def run (s : Gate) (schedule : List Action) : Gate :=
  schedule.foldl step s

/-- A fresh `Handler()`: `var connects uint32`, no request. -/
def Gate.init : Gate := { connects := 0, reqs := [] }

/-! ## Descriptions used in the statements -/

/-- The select case that receives the size `s` from `resCh`. -/
def gotSize (s : Int) : Selected :=
  .recv (.res s)

/-- Buffer of the fan-in loop after it has appended `sizes`, the first of
them in iteration `i`, to `buf`. -/
def appendSizes (LineBreak : String) : Nat → String → List Int → String
  | _, buf, [] => buf
  | i, buf, s :: ss =>
    appendSizes LineBreak (i + 1)
      (if i = 0 then buf ++ Itoa s else buf ++ (LineBreak ++ Itoa s)) ss

/-- Response of the stall exit and of the closed-channel exits:
`http.Error(w, http.StatusText(500), 500)`. -/
def internalError : Response :=
  httpError [] (StatusText StatusInternalServerError) StatusInternalServerError

/-- Number of bytes of a line (its UTF-8 encoding). -/
def byteLen (l : List Char) : Nat :=
  (l.map Char.utf8Size).sum

/-- Number of non-empty newline-delimited lines of a body. -/
def nonEmptyLineCount (body : String) : Nat :=
  ((body.toList.splitOn '\n').filter (fun l => l ≠ [])).length

/-- A request that passes the path, method and content-type checks. -/
def plainPost (body : String) : Request :=
  { path := "/", method := "POST", header := [("Content-Type", "text/plain")], body := body }

/-- The schedule in which `n` requests reach the gate, each of them makes
the comparison of line 38, and only then each of them makes the addition
of line 43. -/
def raceSchedule (n : Nat) : List Action :=
  List.replicate n .arrive ++ (List.range' 0 n).map .next ++ (List.range' 0 n).map .next

/-! ## Lemmas on the fan-in loop -/

theorem fanIn_gotSizes (LineBreak : String) (sizes : List Int) :
    ∀ (m i : Nat) (buf : String) (rest : List Selected),
      fanIn LineBreak (sizes.length + m) i buf (sizes.map gotSize ++ rest)
        = fanIn LineBreak m (i + sizes.length) (appendSizes LineBreak i buf sizes) rest := by
  induction sizes with
  | nil => intro m i buf rest; simp [appendSizes]
  | cons s ss ih =>
    intro m i buf rest
    have hlen : (s :: ss).length + m = (ss.length + m) + 1 := by
      simp only [List.length_cons]; omega
    rw [hlen]
    by_cases hi : i = 0
    · subst hi
      simp only [fanIn, List.map_cons, List.cons_append, List.headD_cons, gotSize,
        List.tail_cons, appendSizes, if_true]
      simpa [gotSize, Nat.add_comm, Nat.add_left_comm] using ih m 1 (buf ++ Itoa s) rest
    · simp only [fanIn, List.map_cons, List.cons_append, List.headD_cons, gotSize,
        List.tail_cons, appendSizes, if_neg hi]
      simpa [gotSize, Nat.add_comm, Nat.add_left_comm] using
        ih m (i + 1) (buf ++ (LineBreak ++ Itoa s)) rest

theorem appendSizes_go (LineBreak : String) (sizes : List Int) :
    ∀ (i : Nat) (buf : String), i ≠ 0 →
      appendSizes LineBreak i buf sizes = String.intercalate.go buf LineBreak (sizes.map Itoa) := by
  induction sizes with
  | nil => intro i buf _; simp [appendSizes, String.intercalate.go]
  | cons s ss ih =>
    intro i buf hi
    simp only [appendSizes, if_neg hi, List.map_cons, String.intercalate.go]
    rw [ih (i + 1) _ (Nat.succ_ne_zero i), String.append_assoc]

theorem appendSizes_intercalate (LineBreak : String) (sizes : List Int) :
    appendSizes LineBreak 0 "" sizes = LineBreak.intercalate (sizes.map Itoa) := by
  cases sizes with
  | nil => simp [appendSizes, String.intercalate]
  | cons s ss =>
    simp only [appendSizes, if_true, List.map_cons, String.intercalate]
    rw [appendSizes_go LineBreak ss 1 _ (by decide)]
    simp

theorem fanIn_timeout (LineBreak : String) (m i : Nat) (buf : String) (evs : List Selected)
    (h : evs.headD .timeout = .timeout) :
    fanIn LineBreak (m + 1) i buf evs = (internalError, .timedOut, i + 1) := by
  rw [fanIn, h]; rfl

theorem fanIn_error (LineBreak : String) (m i : Nat) (buf e : String) (rest : List Selected) :
    fanIn LineBreak (m + 1) i buf (.recv (.err e) :: rest)
      = (httpError [] ("Error was ocurred: " ++ e) StatusInternalServerError, .fetchError,
          i + 1) := by
  simp [fanIn]

theorem fanIn_no_timeout (LineBreak : String) :
    ∀ (remaining i : Nat) (buf : String) (evs : List Selected),
      remaining ≤ evs.length → (∀ e ∈ evs, e ≠ .timeout) →
      (fanIn LineBreak remaining i buf evs).2.1 ≠ .timedOut := by
  intro remaining
  induction remaining with
  | zero => intro i buf evs _ _; simp [fanIn]
  | succ n ih =>
    intro i buf evs hlen hne
    cases evs with
    | nil => simp at hlen
    | cons e es =>
      have hes : ∀ x ∈ es, x ≠ Selected.timeout := fun x hx => hne x (List.mem_cons_of_mem _ hx)
      have hn : n ≤ es.length := by simpa using hlen
      cases e with
      | timeout => exact absurd rfl (hne _ (List.mem_cons_self _ _))
      | recv o =>
        cases o with
        | res size =>
          by_cases hi : i = 0
          · simpa [fanIn, hi] using ih 1 _ es hn hes
          · simpa [fanIn, hi] using ih (i + 1) _ es hn hes
        | resClosed => simp [fanIn]
        | err e => simp [fanIn]
        | errClosed => simp [fanIn]

theorem fanIn_status (LineBreak : String) :
    ∀ (remaining i : Nat) (buf : String) (evs : List Selected),
      (fanIn LineBreak remaining i buf evs).1.status = StatusOK ∨
      (fanIn LineBreak remaining i buf evs).1.status = StatusInternalServerError := by
  intro remaining
  induction remaining with
  | zero => intro i buf evs; simp [fanIn]
  | succ n ih =>
    intro i buf evs
    rw [fanIn]
    rcases h : evs.headD .timeout with o | _
    · cases o with
      | res size =>
        by_cases hi : i = 0
        · simpa [hi] using ih 1 _ evs.tail
        · simpa [hi] using ih (i + 1) _ evs.tail
      | resClosed => simp [httpError]
      | err e => simp [httpError]
      | errClosed => simp [httpError]
    · simp [httpError]

theorem resolve_early (early : List Timed)
    (h : ∀ t ∈ early, t.gap < selectTimeout ∧ ∃ s, t.outcome = .res s) :
    ∃ sizes : List Int, sizes.length = early.length ∧ early.map resolve = sizes.map gotSize := by
  induction early with
  | nil => exact ⟨[], rfl, rfl⟩
  | cons t ts ih =>
    obtain ⟨sizes, hlen, hmap⟩ := ih (fun x hx => h x (List.mem_cons_of_mem _ hx))
    obtain ⟨hgap, s, hs⟩ := h t (List.mem_cons_self _ _)
    refine ⟨s :: sizes, by simp [hlen], ?_⟩
    simp [hmap, resolve, hgap, hs, gotSize]

theorem resolve_late (late : List Timed)
    (h : ∀ t, late.head? = some t → selectTimeout < t.gap) :
    (late.map resolve).headD .timeout = .timeout := by
  cases late with
  | nil => rfl
  | cons t ts =>
    have hgap : selectTimeout < t.gap := h t rfl
    have h1 : ¬ t.gap < selectTimeout := by omega
    have h2 : ¬ t.gap = selectTimeout := by omega
    simp [resolve, h1, h2]

theorem resolve_in_time (t : Timed) (h : t.gap < selectTimeout) : resolve t ≠ .timeout := by
  simp [resolve, h]

/-! ## The fan-in loop: success, fetch failure, stall -/

/-- C1: when the fan-in loop of `processURLs` receives `N = numURLs` sizes
on the results channel, in the order `sizes`, with no error and no timeout
before the last of them, the response has status 200 and its body is the
decimal renderings of the sizes in arrival order joined by `LineBreak`
(no leading, no trailing separator), so it holds `N` numbers; on the empty
request body the response is 200 with the empty body, whatever arrives. -/
theorem processURLs_success_body (eof : Bool) (LineBreak body : String) (sizes : List Int)
    (rest : List Selected) (hN : sizes.length = (scanLines eof body).length) :
    (processURLs eof LineBreak body (sizes.map gotSize ++ rest)).resp.status = 200 ∧
    (processURLs eof LineBreak body (sizes.map gotSize ++ rest)).resp.body
      = LineBreak.intercalate (sizes.map Itoa) ∧
    (sizes.map Itoa).length = (processURLs eof LineBreak body (sizes.map gotSize ++ rest)).numURLs ∧
    (processURLs eof LineBreak body (sizes.map gotSize ++ rest)).exit = .written ∧
    (∀ evs, (processURLs eof LineBreak "" evs).resp = { status := 200, header := [], body := "" }) := by
  have key : fanIn LineBreak (scanLines eof body).length 0 "" (sizes.map gotSize ++ rest)
      = ({ status := StatusOK, header := [], body := LineBreak.intercalate (sizes.map Itoa) },
          .written, sizes.length) := by
    have h := fanIn_gotSizes LineBreak sizes 0 0 "" rest
    rw [Nat.add_zero, hN] at h
    rw [h, appendSizes_intercalate]
    simp [fanIn, hN]
  refine ⟨?_, ?_, ?_, ?_, ?_⟩
  · simp [processURLs, key, StatusOK]
  · simp [processURLs, key]
  · simp [processURLs, hN]
  · simp [processURLs, key]
  · intro evs
    rfl

theorem processURLs_success_body_witness :
    [10, 20].length = (scanLines false "http://a/x\nhttp://a/y").length ∧
    (processURLs false "\n" "http://a/x\nhttp://a/y" ([10, 20].map gotSize ++ [])).resp.body
      = "\n".intercalate ([10, 20].map Itoa) :=
  ⟨by decide, (processURLs_success_body false "\n" "http://a/x\nhttp://a/y" [10, 20] []
    (by decide)).2.1⟩

/-- C2: when the fan-in loop of `processURLs` has received `k < N` sizes and
then receives an error `e` on the errors channel, the response is the single
failure `http.Error(w, "Error was ocurred: " + e, 500)`: status 500, body the
message carrying `e`; it is the same response whatever the `k` sizes
collected and whatever would have arrived afterwards. -/
theorem processURLs_error_aborts (eof : Bool) (LineBreak body : String) (sizes : List Int) (e : String)
    (rest : List Selected) (hk : sizes.length < (scanLines eof body).length) :
    (processURLs eof LineBreak body (sizes.map gotSize ++ .recv (.err e) :: rest)).resp.status = 500 ∧
    (processURLs eof LineBreak body (sizes.map gotSize ++ .recv (.err e) :: rest)).resp.body
      = "Error was ocurred: " ++ e ++ "\n" ∧
    (processURLs eof LineBreak body (sizes.map gotSize ++ .recv (.err e) :: rest)).exit
      = .fetchError ∧
    (processURLs eof LineBreak body (sizes.map gotSize ++ .recv (.err e) :: rest)).iterations
      = sizes.length + 1 ∧
    (∀ (sizes' : List Int) (rest' : List Selected), sizes'.length < (scanLines eof body).length →
      (processURLs eof LineBreak body (sizes'.map gotSize ++ .recv (.err e) :: rest')).resp
        = (processURLs eof LineBreak body (sizes.map gotSize ++ .recv (.err e) :: rest)).resp) := by
  have key : ∀ (zs : List Int) (tl : List Selected), zs.length < (scanLines eof body).length →
      fanIn LineBreak (scanLines eof body).length 0 "" (zs.map gotSize ++ .recv (.err e) :: tl)
        = (httpError [] ("Error was ocurred: " ++ e) StatusInternalServerError, .fetchError,
            zs.length + 1) := by
    intro zs tl hz
    obtain ⟨m, hm⟩ : ∃ m, (scanLines eof body).length = zs.length + (m + 1) :=
      ⟨(scanLines eof body).length - zs.length - 1, by omega⟩
    rw [hm, fanIn_gotSizes, fanIn_error, Nat.zero_add]
  refine ⟨?_, ?_, ?_, ?_, ?_⟩
  · simp [processURLs, key sizes rest hk, httpError, StatusInternalServerError]
  · simp [processURLs, key sizes rest hk, httpError]
  · simp [processURLs, key sizes rest hk]
  · simp [processURLs, key sizes rest hk]
  · intro sizes' rest' hk'
    simp [processURLs, key sizes rest hk, key sizes' rest' hk']

theorem processURLs_error_aborts_witness :
    [10].length < (scanLines false "http://a/x\n \nhttp://a/y").length ∧
    (processURLs false "\n" "http://a/x\n \nhttp://a/y"
      ([10].map gotSize ++ .recv (.err "failed to send request: x") :: [gotSize 20])).resp.body
      = "Error was ocurred: " ++ "failed to send request: x" ++ "\n" :=
  ⟨by decide, (processURLs_error_aborts false "\n" "http://a/x\n \nhttp://a/y" [10]
    "failed to send request: x" [gotSize 20] (by decide)).2.1⟩

/-- C3: over timed arrivals, when `k < N` sizes were received, each within
10 seconds of the start of its iteration, and then no outcome arrives within
10 seconds (nothing more arrives, or the next arrival comes later than
that), the response is the single stall failure
`http.Error(w, "Internal Server Error", 500)`, which holds none of the sizes
collected; and the timer is armed afresh in every iteration: a run in which
every one of at least `N` arrivals comes within 10 seconds of the start of
its iteration does not take the timeout exit, whatever the sum of the gaps. -/
theorem processURLsTimed_stall (eof : Bool) (LineBreak body : String) (early late : List Timed)
    (hk : early.length < (scanLines eof body).length)
    (hearly : ∀ t ∈ early, t.gap < selectTimeout ∧ ∃ s, t.outcome = .res s)
    (hlate : ∀ t, late.head? = some t → selectTimeout < t.gap) :
    (processURLsTimed eof LineBreak body (early ++ late)).resp = internalError ∧
    (processURLsTimed eof LineBreak body (early ++ late)).resp.status = 500 ∧
    (processURLsTimed eof LineBreak body (early ++ late)).resp.body = "Internal Server Error\n" ∧
    (processURLsTimed eof LineBreak body (early ++ late)).exit = .timedOut ∧
    (∀ arrivals : List Timed, (scanLines eof body).length ≤ arrivals.length →
      (∀ t ∈ arrivals, t.gap < selectTimeout) →
      (processURLsTimed eof LineBreak body arrivals).exit ≠ .timedOut) := by
  obtain ⟨sizes, hlen, hmap⟩ := resolve_early early hearly
  have key : fanIn LineBreak (scanLines eof body).length 0 "" ((early ++ late).map resolve)
      = (internalError, .timedOut, early.length + 1) := by
    obtain ⟨m, hm⟩ : ∃ m, (scanLines eof body).length = sizes.length + (m + 1) :=
      ⟨(scanLines eof body).length - sizes.length - 1, by omega⟩
    rw [List.map_append, hmap, hm, fanIn_gotSizes,
      fanIn_timeout _ _ _ _ _ (resolve_late late hlate), Nat.zero_add, hlen]
  have hresp : (processURLsTimed eof LineBreak body (early ++ late)).resp = internalError := by
    simp only [processURLsTimed, processURLs, key]
  have hexit : (processURLsTimed eof LineBreak body (early ++ late)).exit = .timedOut := by
    simp only [processURLsTimed, processURLs, key]
  refine ⟨hresp, ?_, ?_, hexit, ?_⟩
  · rw [hresp]; rfl
  · rw [hresp]; decide
  · intro arrivals hlen' hgap
    have := fanIn_no_timeout LineBreak (scanLines eof body).length 0 "" (arrivals.map resolve)
      (by simpa using hlen')
      (by
        intro x hx
        obtain ⟨t, ht, rfl⟩ := List.mem_map.1 hx
        exact resolve_in_time t (hgap t ht))
    simpa [processURLsTimed, processURLs] using this

theorem processURLsTimed_stall_witness :
    (processURLsTimed false "\n" "a\nb\nc"
      ([⟨9000000000, .res 10, false⟩] ++ [⟨10000000001, .res 20, false⟩])).exit = .timedOut ∧
    (processURLsTimed false "\n" "a\nb\nc"
      [⟨9000000000, .res 10, false⟩, ⟨9000000000, .res 20, false⟩,
        ⟨9000000000, .res 30, false⟩]).exit ≠ .timedOut :=
  have h := processURLsTimed_stall false "\n" "a\nb\nc" [⟨9000000000, .res 10, false⟩]
    [⟨10000000001, .res 20, false⟩] (by decide) (by simp [selectTimeout])
    (by simp [selectTimeout])
  ⟨h.2.2.2.1, h.2.2.2.2 _ (by decide) (by decide)⟩

/-! ## The handler run on its own -/

/-- C7: the answer of the handler is decided by the first failing check in
the order path, method, content type: a path other than "/" gives 404;
otherwise a method other than POST gives 405 with the header
Allow: "POST, OPTIONS"; otherwise a Content-Type other than "text/plain"
gives 415; in each case `processURLs` is not invoked and the counter is
neither added to nor changed. -/
theorem Handler_checks_in_order (eof : Bool) (LineBreak : String) (c : Nat) (r : Request)
    (evs : List Selected) :
    (r.path ≠ "/" →
      (Handler eof LineBreak c r evs).resp.status = 404 ∧
      (Handler eof LineBreak c r evs).proc = none ∧ (Handler eof LineBreak c r evs).adds = [] ∧
      (Handler eof LineBreak c r evs).connects = c) ∧
    (r.path = "/" → r.method ≠ "POST" →
      (Handler eof LineBreak c r evs).resp.status = 405 ∧
      headerGet (Handler eof LineBreak c r evs).resp.header "Allow" = "POST, OPTIONS" ∧
      (Handler eof LineBreak c r evs).proc = none ∧ (Handler eof LineBreak c r evs).adds = [] ∧
      (Handler eof LineBreak c r evs).connects = c) ∧
    (r.path = "/" → r.method = "POST" → headerGet r.header "Content-Type" ≠ "text/plain" →
      (Handler eof LineBreak c r evs).resp.status = 415 ∧
      (Handler eof LineBreak c r evs).proc = none ∧ (Handler eof LineBreak c r evs).adds = [] ∧
      (Handler eof LineBreak c r evs).connects = c) := by
  refine ⟨?_, ?_, ?_⟩
  · intro hp
    simp [Handler, hp, httpNotFound, httpError, StatusNotFound]
  · intro hp hm
    have hm' : r.method ≠ MethodPost := hm
    have h : Handler eof LineBreak c r evs
        = { resp := notAllowed r, connects := c, inside := none, proc := none, adds := [] } := by
      simp [Handler, hp, hm']
    rw [h]
    exact ⟨rfl, by simp only [notAllowed, httpError]; decide, rfl, rfl, rfl⟩
  · intro hp hm hct
    have hm' : r.method = MethodPost := hm
    have h : Handler eof LineBreak c r evs
        = { resp := unsupportedContentType r, connects := c, inside := none, proc := none,
            adds := [] } := by
      simp [Handler, hp, hm', hct]
    rw [h]
    exact ⟨rfl, rfl, rfl, rfl⟩

theorem Handler_checks_in_order_witness :
    (Handler false "\n" 5 ⟨"/", "GET", [("Content-Type", "text/plain")], ""⟩ []).resp.status = 405 ∧
    headerGet (Handler false "\n" 5 ⟨"/", "GET", [("Content-Type", "text/plain")], ""⟩ []).resp.header
      "Allow" = "POST, OPTIONS" :=
  have h := (Handler_checks_in_order false "\n" 5 ⟨"/", "GET", [("Content-Type", "text/plain")], ""⟩
    []).2.1 (by decide) (by decide)
  ⟨h.1, h.2.1⟩

/-- C6: a request handled to completion on its own leaves the counter as it
found it, for every counter value `c` of a `uint32`: an admitted request
adds 1 and then adds `^uint32(0)` once, which modulo 2^32 takes 1 off,
whichever way `processURLs` exits; a request answered 404, 405, 415 or 429
performs no addition and does not invoke `processURLs`. -/
theorem Handler_restores_counter (eof : Bool) (LineBreak : String) (c : Nat) (r : Request)
    (evs : List Selected) (hc : c < uint32Size) :
    (Handler eof LineBreak c r evs).connects = c ∧
    ((Handler eof LineBreak c r evs).proc ≠ none →
      (Handler eof LineBreak c r evs).adds = [1, allOnes32] ∧
      (Handler eof LineBreak c r evs).inside = some (atomicAddUint32 c 1) ∧
      atomicAddUint32 (atomicAddUint32 c 1) allOnes32 = c) ∧
    ((Handler eof LineBreak c r evs).resp.status ∈ [404, 405, 415, 429] →
      (Handler eof LineBreak c r evs).adds = [] ∧ (Handler eof LineBreak c r evs).proc = none) ∧
    (∀ x, 0 < x → x < uint32Size → atomicAddUint32 x allOnes32 = x - 1) := by
  have hback : atomicAddUint32 (atomicAddUint32 c 1) allOnes32 = c := by
    simp only [atomicAddUint32, allOnes32, uint32Size] at *
    omega
  have hstatus := fanIn_status LineBreak (scanLines eof r.body).length 0 "" evs
  refine ⟨?_, ?_, ?_, ?_⟩
  · unfold Handler
    split_ifs <;> simp [hback]
  · unfold Handler
    split_ifs <;> simp [hback]
  · unfold Handler
    split_ifs
    · simp
    · simp
    · simp
    · simp
    · simp only [processURLs]
      rcases hstatus with h | h <;> simp [h, StatusOK, StatusInternalServerError]
  · intro x hx hlt
    simp only [atomicAddUint32, allOnes32, uint32Size] at *
    omega

theorem Handler_restores_counter_witness :
    (4294967295 : Nat) < uint32Size ∧
    (Handler false "\n" 4294967295 (plainPost "http://a/x") [.recv (.err "boom")]).connects
      = 4294967295 :=
  ⟨by decide, (Handler_restores_counter false "\n" 4294967295 (plainPost "http://a/x")
    [.recv (.err "boom")] (by decide)).1⟩

theorem Handler_plainPost (eof : Bool) (LineBreak body : String) (evs : List Selected) (c : Nat) :
    Handler eof LineBreak c (plainPost body) evs
      = if c = MaxConnections then
          { resp := httpError [] (StatusText StatusTooManyRequests) StatusTooManyRequests
            connects := c, inside := none, proc := none, adds := [] }
        else
          { resp := (processURLs eof LineBreak body evs).resp
            connects := atomicAddUint32 (atomicAddUint32 c 1) allOnes32
            inside := some (atomicAddUint32 c 1)
            proc := some (processURLs eof LineBreak body evs)
            adds := [1, allOnes32] } := by
  have h1 : ¬ (plainPost body).path ≠ "/" := by simp [plainPost]
  have h2 : ¬ (plainPost body).method ≠ MethodPost := by simp [plainPost, MethodPost]
  have h3 : ¬ headerGet (plainPost body).header "Content-Type" ≠ "text/plain" := by
    simp [plainPost, headerGet]
  unfold Handler
  rw [if_neg h1, if_neg h2, if_neg h3]
  rfl

/-- The gate on the counter values up to `MaxConnections`: a request that
passed the three checks is admitted below 999, with the counter at `c + 1`
while `processURLs` runs, and answered 429 at 999 with no addition. -/
theorem Handler_gate_within_bound (eof : Bool) (LineBreak body : String) (evs : List Selected) (c : Nat) :
    (c < MaxConnections →
      (Handler eof LineBreak c (plainPost body) evs).inside = some (c + 1) ∧
      (Handler eof LineBreak c (plainPost body) evs).proc = some (processURLs eof LineBreak body evs)) ∧
    (c = MaxConnections →
      (Handler eof LineBreak c (plainPost body) evs).resp.status = 429 ∧
      (Handler eof LineBreak c (plainPost body) evs).proc = none ∧
      (Handler eof LineBreak c (plainPost body) evs).adds = [] ∧
      (Handler eof LineBreak c (plainPost body) evs).connects = c) := by
  rw [Handler_plainPost]
  constructor
  · intro hlt
    have hne : c ≠ MaxConnections := Nat.ne_of_lt hlt
    have hadd : atomicAddUint32 c 1 = c + 1 := by
      simp only [atomicAddUint32, uint32Size, MaxConnections] at *
      omega
    rw [if_neg hne]
    exact ⟨by simp [hadd], rfl⟩
  · intro heq
    rw [if_pos heq]
    exact ⟨rfl, rfl, rfl, rfl⟩

/-- C4: the gate of the handler on a counter value above `MaxConnections`:
the comparison `connects == MaxConnections` is false, so a request that
passed the three checks is admitted, `processURLs` is invoked with the
counter at `c + 1`, and the answer is that of `processURLs`, not 429. -/
theorem Handler_admits_above_max (eof : Bool) (LineBreak body : String) (evs : List Selected) (c : Nat)
    (habove : MaxConnections < c) (hc : c + 1 < uint32Size) :
    (Handler eof LineBreak c (plainPost body) evs).inside = some (c + 1) ∧
    (Handler eof LineBreak c (plainPost body) evs).proc = some (processURLs eof LineBreak body evs) ∧
    (Handler eof LineBreak c (plainPost body) evs).resp = (processURLs eof LineBreak body evs).resp ∧
    (Handler eof LineBreak c (plainPost body) evs).resp.status ≠ 429 ∧
    (Handler eof LineBreak c (plainPost body) evs).adds = [1, allOnes32] := by
  have hne : c ≠ MaxConnections := Nat.ne_of_gt habove
  have hadd : atomicAddUint32 c 1 = c + 1 := by
    simp only [atomicAddUint32]
    exact Nat.mod_eq_of_lt hc
  rw [Handler_plainPost, if_neg hne]
  refine ⟨by simp [hadd], rfl, rfl, ?_, rfl⟩
  have hstatus := fanIn_status LineBreak (scanLines eof body).length 0 "" evs
  simp only [processURLs]
  rcases hstatus with h | h <;> simp [h, StatusOK, StatusInternalServerError]

theorem Handler_admits_above_max_witness :
    MaxConnections < 1000 ∧ 1000 + 1 < uint32Size ∧
    (Handler false "\n" 1000 (plainPost "") []).inside = some (1000 + 1) ∧
    (Handler false "\n" 1000 (plainPost "") []).resp.status ≠ 429 :=
  have h := Handler_admits_above_max false "\n" "" [] 1000 (by decide) (by decide)
  ⟨by decide, by decide, h.1, h.2.2.2.1⟩

/-- C10: a POST request with Content-Type text/plain whose URL path is
"/custom-path", the path of the custom-path example, is answered
404 Not Found by the handler, `processURLs` is not invoked and the counter
is not touched, whatever the counter, the body and the arrivals. -/
theorem Handler_custom_path_not_found (eof : Bool) (LineBreak : String) (c : Nat) (body : String)
    (evs : List Selected) :
    (Handler eof LineBreak c
      ⟨"/custom-path", "POST", [("Content-Type", "text/plain")], body⟩ evs).resp
        = httpNotFound ∧
    (Handler eof LineBreak c
      ⟨"/custom-path", "POST", [("Content-Type", "text/plain")], body⟩ evs).resp.status = 404 ∧
    (Handler eof LineBreak c
      ⟨"/custom-path", "POST", [("Content-Type", "text/plain")], body⟩ evs).proc = none ∧
    (Handler eof LineBreak c
      ⟨"/custom-path", "POST", [("Content-Type", "text/plain")], body⟩ evs).adds = [] := by
  have hp : ("/custom-path" : String) ≠ "/" := by decide
  have h : Handler eof LineBreak c
      ⟨"/custom-path", "POST", [("Content-Type", "text/plain")], body⟩ evs
      = { resp := httpNotFound, connects := c, inside := none, proc := none, adds := [] } := by
    simp [Handler, hp]
  rw [h]
  exact ⟨rfl, rfl, rfl, rfl⟩

/-! ## `getData` -/

/-- The fetcher whose send is received: for every URL and every outcome of
the retrieval, when a receiver takes the value, `getData` performs exactly
one send and returns: on a transport failure an error whose text starts
with "failed to send request", on a body-read failure an error whose text
starts with "failed to read body", and otherwise the length of the body
read, a non-negative integer, on the results channel. -/
theorem getData_received (url : String) (other : ChanFate) :
    (∀ cause, getData url (.transportError cause) other .received
      = { sends := [.err ("failed to send request" ++ (": " ++ cause))], ending := .returned,
          closedBody := false }) ∧
    (∀ cause, getData url (.readError cause) other .received
      = { sends := [.err ("failed to read body" ++ (": " ++ cause))], ending := .returned,
          closedBody := true }) ∧
    (∀ bytes, getData url (.body bytes) .received other
      = { sends := [.res (bytes.length : Int)], ending := .returned, closedBody := true } ∧
      (0 : Int) ≤ (bytes.length : Int)) := by
  refine ⟨?_, ?_, ?_⟩
  · intro cause
    simp only [getData, chanSend, ← String.append_assoc]
    rfl
  · intro cause
    simp only [getData, chanSend, ← String.append_assoc]
    rfl
  · intro bytes
    exact ⟨rfl, Int.ofNat_nonneg _⟩

/-- C8: a fetcher that is still running when `processURLs` has returned
sends on a closed channel: in the run on two URLs whose first outcome is an
error, `processURLs` answers and returns after one iteration, one of the two
fetchers launched is left unserved, and a `getData` whose send meets the
closed channels performs no send and does not return, it panics, for every
URL and every outcome of the retrieval. -/
theorem getData_panics_after_return :
    (processURLs false "\n" "http://a/x\nhttp://a/y" [.recv (.err "boom")]).exit = .fetchError ∧
    (processURLs false "\n" "http://a/x\nhttp://a/y" [.recv (.err "boom")]).launched.length = 2 ∧
    unserved (processURLs false "\n" "http://a/x\nhttp://a/y" [.recv (.err "boom")]) = 1 ∧
    getData "http://a/y" (.body [60, 104, 62]) fateAfterReturn fateAfterReturn
      = { sends := [], ending := .panicked, closedBody := true } ∧
    (∀ url net, (getData url net fateAfterReturn fateAfterReturn).sends = [] ∧
      (getData url net fateAfterReturn fateAfterReturn).ending = .panicked) := by
  refine ⟨by decide, by decide, by decide, by decide, ?_⟩
  intro url net
  cases net <;> exact ⟨rfl, rfl⟩

/-! ## The scan of the request body -/

theorem scanFrom_line (eof : Bool) (l : List Char) :
    ∀ (cur : List Char) (n : Nat) (rest : List Char), '\n' ∉ l →
      n + byteLen l < MaxScanTokenSize →
      scanFrom eof cur n (l ++ '\n' :: rest)
        = String.mk (dropCR (cur.reverse ++ l)) :: scanFrom eof [] 0 rest := by
  induction l with
  | nil => intro cur n rest _ _; simp [scanFrom]
  | cons c cs ih =>
    intro cur n rest hnl hlen
    have hc : c ≠ '\n' := fun h => hnl (h ▸ List.mem_cons_self _ _)
    have hcs : '\n' ∉ cs := fun h => hnl (List.mem_cons_of_mem _ h)
    have hb : byteLen (c :: cs) = c.utf8Size + byteLen cs := by simp [byteLen]
    have hfit : ¬ MaxScanTokenSize < n + c.utf8Size := by omega
    have hfull : ¬ MaxScanTokenSize = n + c.utf8Size := by omega
    have := ih (c :: cur) (n + c.utf8Size) rest hcs (by omega)
    rw [List.cons_append, scanFrom, if_neg hc, if_neg hfit, if_neg hfull]
    refine Eq.trans this ?_
    simp

theorem scanFrom_last (eof : Bool) (l : List Char) :
    ∀ (cur : List Char) (n : Nat), '\n' ∉ l → n + byteLen l < MaxScanTokenSize →
      scanFrom eof cur n l
        = if cur.reverse ++ l = [] then [] else [String.mk (dropCR (cur.reverse ++ l))] := by
  induction l with
  | nil => intro cur n _ _; simp [scanFrom]
  | cons c cs ih =>
    intro cur n hnl hlen
    have hc : c ≠ '\n' := fun h => hnl (h ▸ List.mem_cons_self _ _)
    have hcs : '\n' ∉ cs := fun h => hnl (List.mem_cons_of_mem _ h)
    have hb : byteLen (c :: cs) = c.utf8Size + byteLen cs := by simp [byteLen]
    have hfit : ¬ MaxScanTokenSize < n + c.utf8Size := by omega
    have hfull : ¬ MaxScanTokenSize = n + c.utf8Size := by omega
    have := ih (c :: cur) (n + c.utf8Size) hcs (by omega)
    rw [scanFrom, if_neg hc, if_neg hfit, if_neg hfull]
    refine Eq.trans this ?_
    simp

theorem scanFrom_lines (eof : Bool) (lines : List (List Char)) (last : List Char)
    (hlines : ∀ l ∈ lines, '\n' ∉ l ∧ byteLen l < MaxScanTokenSize)
    (hlast : '\n' ∉ last ∧ byteLen last < MaxScanTokenSize) :
    scanFrom eof [] 0 ((lines.map (fun l => l ++ ['\n'])).flatten ++ last)
      = lines.map (fun l => String.mk (dropCR l))
        ++ (if last = [] then [] else [String.mk (dropCR last)]) := by
  induction lines with
  | nil =>
    have := scanFrom_last eof last [] 0 hlast.1 (by simpa using hlast.2)
    simpa using this
  | cons l ls ih =>
    have hl := hlines l (List.mem_cons_self _ _)
    have hrec := ih (fun x hx => hlines x (List.mem_cons_of_mem _ hx))
    have := scanFrom_line eof l [] 0 ((ls.map (fun l => l ++ ['\n'])).flatten ++ last) hl.1
      (by simpa using hl.2)
    rw [hrec] at this
    simpa using this

/-- C9 (as stated by the claim, refuted): on the body "a", empty line, "b"
`processURLs` hands the empty string to `getData` and runs `N = 3` fan-in
iterations at most, while the body has two non-empty lines. -/
theorem processURLs_launches_empty_line :
    (processURLs false "\n" "a\n\nb" []).launched = ["a", "", "b"] ∧
    "" ∈ (processURLs false "\n" "a\n\nb" []).launched ∧
    (processURLs false "\n" "a\n\nb" []).numURLs = 3 ∧
    nonEmptyLineCount "a\n\nb" = 2 ∧
    (processURLs false "\n" "a\n\nb" []).numURLs ≠ nonEmptyLineCount "a\n\nb" := by
  decide

/-- C9 (amended): `processURLs` launches exactly one fetcher per line of the
body, empty lines included: for a body made of newline-terminated lines
followed by a last line without newline, each line shorter than
`MaxScanTokenSize` bytes, the URLs handed to `getData` are the lines in
order, each with one trailing carriage return dropped, followed by the last
line unless it is empty, and `numURLs` is their number. -/
theorem processURLs_fetcher_per_line (eof : Bool) (LineBreak : String) (lines : List (List Char))
    (last : List Char) (evs : List Selected)
    (hlines : ∀ l ∈ lines, '\n' ∉ l ∧ byteLen l < MaxScanTokenSize)
    (hlast : '\n' ∉ last ∧ byteLen last < MaxScanTokenSize) :
    (processURLs eof LineBreak (String.mk ((lines.map (fun l => l ++ ['\n'])).flatten ++ last))
      evs).launched
      = lines.map (fun l => String.mk (dropCR l))
        ++ (if last = [] then [] else [String.mk (dropCR last)]) ∧
    (processURLs eof LineBreak (String.mk ((lines.map (fun l => l ++ ['\n'])).flatten ++ last))
      evs).numURLs = lines.length + (if last = [] then 0 else 1) := by
  have h := scanFrom_lines eof lines last hlines hlast
  constructor
  · simpa [processURLs, scanLines] using h
  · simp only [processURLs, scanLines, String.toList]
    rw [h]
    split_ifs <;> simp

theorem processURLs_fetcher_per_line_witness :
    (processURLs false "\n" (String.mk (([['a'], [], ['b', '\r']].map
      (fun l => l ++ ['\n'])).flatten ++ ['c'])) []).launched = ["a", "", "b", "c"] :=
  (processURLs_fetcher_per_line false "\n" [['a'], [], ['b', '\r']] ['c'] [] (by decide)
    (by decide)).1

/-! ## The gate under interleaving -/

theorem run_append (s : Gate) (a b : List Action) : run s (a ++ b) = run (run s a) b := by
  simp [run, List.foldl_append]

theorem step_next_at (c : Nat) (pre post : List Phase) (p : Phase) :
    step ⟨c, pre ++ p :: post⟩ (.next pre.length)
      = ⟨(advance c p).1, pre ++ (advance c p).2 :: post⟩ := by
  have h : (pre ++ p :: post)[pre.length]? = some p := by
    rw [List.getElem?_append_right (Nat.le_refl _), Nat.sub_self]
    exact List.getElem?_cons_zero
  simp only [step]
  rw [h]
  simp

theorem run_arrivals (n : Nat) :
    ∀ (c : Nat) (rs : List Phase),
      run ⟨c, rs⟩ (List.replicate n .arrive) = ⟨c, rs ++ List.replicate n .arrived⟩ := by
  induction n with
  | zero => intro c rs; simp [run]
  | succ n ih =>
    intro c rs
    have := ih c (rs ++ [.arrived])
    simp only [run, List.replicate_succ, List.foldl_cons, step] at this ⊢
    rw [this]
    simp

theorem run_compare_all (m : Nat) :
    ∀ (k c : Nat), c ≠ MaxConnections →
      run ⟨c, List.replicate k .passed ++ List.replicate m .arrived⟩
          ((List.range' k m).map .next)
        = ⟨c, List.replicate (k + m) .passed⟩ := by
  induction m with
  | zero => intro k c _; simp [run]
  | succ m ih =>
    intro k c hc
    have hstep := step_next_at c (List.replicate k .passed) (List.replicate m .arrived) .arrived
    simp only [List.length_replicate, advance, if_neg hc] at hstep
    have hrec := ih (k + 1) c hc
    simp only [run, List.range'_succ, List.map_cons, List.foldl_cons, List.replicate_succ]
      at hrec ⊢
    rw [hstep]
    have e1 : List.replicate k Phase.passed ++ Phase.passed :: List.replicate m Phase.arrived
        = Phase.passed :: List.replicate k Phase.passed ++ List.replicate m Phase.arrived := by
      rw [← List.replicate_succ, List.replicate_succ', List.append_assoc]; rfl
    rw [e1, hrec]
    congr 2
    omega

theorem run_add_all (m : Nat) :
    ∀ (k c : Nat), c + m < uint32Size →
      run ⟨c, List.replicate k .running ++ List.replicate m .passed⟩
          ((List.range' k m).map .next)
        = ⟨c + m, List.replicate (k + m) .running⟩ := by
  induction m with
  | zero => intro k c _; simp [run]
  | succ m ih =>
    intro k c hc
    have hstep := step_next_at c (List.replicate k .running) (List.replicate m .passed) .passed
    have hadd : atomicAddUint32 c 1 = c + 1 := by
      simp only [atomicAddUint32]
      exact Nat.mod_eq_of_lt (by omega)
    simp only [List.length_replicate, advance, hadd] at hstep
    have hrec := ih (k + 1) (c + 1) (by omega)
    simp only [run, List.range'_succ, List.map_cons, List.foldl_cons, List.replicate_succ]
      at hrec ⊢
    rw [hstep]
    have e1 : List.replicate k Phase.running ++ Phase.running :: List.replicate m Phase.passed
        = Phase.running :: List.replicate k Phase.running ++ List.replicate m Phase.passed := by
      rw [← List.replicate_succ, List.replicate_succ', List.append_assoc]; rfl
    rw [e1, hrec]
    congr 1
    · omega
    · congr 1
      omega

theorem run_raceSchedule (n : Nat) (hn : n < uint32Size) :
    run Gate.init (raceSchedule n) = ⟨n, List.replicate n .running⟩ := by
  have h1 := run_arrivals n 0 []
  have h2 := run_compare_all n 0 0 (by decide)
  have h3 := run_add_all n 0 0 (by omega)
  simp only [List.replicate_zero, List.nil_append, Nat.zero_add] at h1 h2 h3
  rw [raceSchedule, run_append, run_append, Gate.init, h1, h2, h3]

/-- C5: in the step relation of the gate, from a fresh handler, the
schedule in which `MaxConnections + 1` requests all make the comparison
before any of them makes the addition reaches a state with the counter at
1000, above `MaxConnections`, with all 1000 requests inside `processURLs`
and none rejected; a further request arriving then is admitted as well. -/
theorem gate_race_exceeds_max :
    (run Gate.init (raceSchedule (MaxConnections + 1))).connects = 1000 ∧
    MaxConnections < (run Gate.init (raceSchedule (MaxConnections + 1))).connects ∧
    (run Gate.init (raceSchedule (MaxConnections + 1))).reqs
      = List.replicate (MaxConnections + 1) .running ∧
    (run Gate.init (raceSchedule (MaxConnections + 1))).reqs.count .rejected = 0 ∧
    advance (run Gate.init (raceSchedule (MaxConnections + 1))).connects .arrived
      = (1000, .passed) := by
  have h := run_raceSchedule (MaxConnections + 1) (by decide)
  rw [h]
  refine ⟨rfl, by decide, rfl, ?_, by decide⟩
  rw [List.count_replicate]
  decide

end Scraping
